import Mathlib

/-! Verification of the GMTM Agent SDK natural-language spec against a shallow
embedding of the repository code.  The embedding covers:

* `src/agents/query_builder.py` — metric / position / state / sport
  normalization tables, `parse_metric_condition`, `_make_alias`, and the
  query assembly of `build_athlete_search_query`;
* `src/agents/nfl_benchmark_agent.py` — `calculate_percentile` and
  `find_player_comparisons` (numeric values are embedded as exact rationals);
* `src/agents/camp_finder_agent.py` — `_rank_events` fit scoring.
-/

namespace GMTM

/-- Single-quote character (ASCII 39), used when SQL fragments need it. -/
def sq : Char := Char.ofNat 39

/-- Python `str.lower` on the ASCII range: maps A-Z to a-z, leaves the rest. -/
def pyCharLower (c : Char) : Char :=
  if 'A' ≤ c ∧ c ≤ 'Z' then Char.ofNat (c.toNat + 32) else c

/-- Python `str.lower` applied characterwise. -/
def pyLower (s : String) : String := String.mk (s.data.map pyCharLower)

/-- Python `str.strip`'s whitespace set: space, tab, newline, CR, VT, FF. -/
def pyIsSpace (c : Char) : Bool :=
  c == ' ' || c == '\t' || c == '\n' || c == '\r' ||
  c == Char.ofNat 11 || c == Char.ofNat 12

/-- Python `str.strip`: drop leading and trailing whitespace. -/
def pyStrip (s : String) : String :=
  String.mk (((s.data.dropWhile pyIsSpace).reverse.dropWhile pyIsSpace).reverse)
def METRIC_MAPPINGS : List (String × String) := [
  ("40", "40 Yard Dash"),
  ("40 yard", "40 Yard Dash"),
  ("40-yard", "40 Yard Dash"),
  ("40 yard dash", "40 Yard Dash"),
  ("40-yard dash", "40 Yard Dash"),
  ("forty", "40 Yard Dash"),
  ("forty yard", "40 Yard Dash"),
  ("forty yard dash", "40 Yard Dash"),
  ("40 time", "40 Yard Dash"),
  ("vertical", "Vertical Jump"),
  ("vert", "Vertical Jump"),
  ("vertical jump", "Vertical Jump"),
  ("verticle", "Vertical Jump"),
  ("5-10-5", "5-10-5 shuttle"),
  ("5-10-5 shuttle", "5-10-5 shuttle"),
  ("shuttle", "5-10-5 shuttle"),
  ("pro agility", "5-10-5 shuttle"),
  ("20 yard shuttle", "20 Yard Shuttle"),
  ("bench", "Bench Press"),
  ("bench press", "Bench Press"),
  ("185 bench", "185 Bench"),
  ("185", "185 Bench"),
  ("225 bench", "225 Pound Bench Press"),
  ("225", "225 Pound Bench Press"),
  ("squat", "Squat"),
  ("deadlift", "Deadlift"),
  ("clean", "Clean"),
  ("power clean", "Power Clean"),
  ("height", "Height"),
  ("weight", "Weight"),
  ("wingspan", "Wingspan"),
  ("hand size", "Hand Size"),
  ("broad jump", "Broad Jump"),
  ("long jump", "Long Jump"),
  ("standing broad", "Broad Jump"),
  ("spike touch", "Spike Touch"),
  ("block touch", "Block Touch"),
  ("reach", "1-hand reach"),
  ("1-hand reach", "1-hand reach"),
  ("2-hand reach", "2-hand reach"),
  ("100 meter", "100 Meter Dash"),
  ("100m", "100 Meter Dash"),
  ("speed", "Speed"),
  ("gpa", "GPA"),
  ("sat", "SAT"),
  ("act", "ACT")
]

def LOWER_IS_BETTER : List String := ["100 Meter Dash", "20 Yard Shuttle", "40 Yard Dash", "5-10-5 shuttle", "Speed"]

def POSITION_MAPPINGS : List (String × List Int) := [
  ("quarterback", [211, 240, 302, 327]),
  ("qb", [211, 240, 302, 327]),
  ("running back", [243, 297, 317, 324]),
  ("rb", [243, 297, 317, 324]),
  ("halfback", [243, 319]),
  ("hb", [243, 319]),
  ("fullback", [249]),
  ("fb", [249]),
  ("wide receiver", [256, 311, 317, 321]),
  ("wr", [256, 311, 317, 321]),
  ("receiver", [256, 311, 317, 321]),
  ("tight end", [245]),
  ("te", [245]),
  ("offensive line", [264, 275, 244]),
  ("ol", [264, 275, 244]),
  ("offensive lineman", [264, 275, 244]),
  ("center", [265]),
  ("guard", [264, 282]),
  ("tackle", [244]),
  ("offensive tackle", [244]),
  ("ot", [244]),
  ("linebacker", [223, 225, 236, 237, 297, 318, 327]),
  ("lb", [223, 225, 236, 237, 297, 318, 327]),
  ("middle linebacker", [223, 297]),
  ("mlb", [223, 297]),
  ("inside linebacker", [225]),
  ("ilb", [225]),
  ("outside linebacker", [237, 318, 327]),
  ("olb", [237, 318, 327]),
  ("defensive back", [226, 227, 233, 234]),
  ("db", [226, 227, 233, 234]),
  ("cornerback", [227, 302, 311, 321]),
  ("cb", [227, 302, 311, 321]),
  ("corner", [227, 302, 311, 321]),
  ("safety", [233, 234]),
  ("free safety", [233]),
  ("fs", [233]),
  ("strong safety", [234, 318]),
  ("ss", [234, 318]),
  ("defensive line", [214, 217, 219]),
  ("dl", [214, 217, 219]),
  ("defensive lineman", [214, 217, 219]),
  ("defensive end", [219, 307, 310, 322]),
  ("de", [219, 307, 310, 322]),
  ("defensive tackle", [214, 320]),
  ("dt", [214, 320]),
  ("nose guard", [320]),
  ("ng", [320]),
  ("kicker", [259]),
  ("k", [259]),
  ("punter", [260]),
  ("p", [260]),
  ("long snapper", [261, 307]),
  ("ls", [261, 307]),
  ("athlete", [253]),
  ("ath", [253]),
  ("dual", [212, 241])
]

def STATE_MAPPINGS : List (String × String) := [
  ("alabama", "AL"), ("alaska", "AK"), ("arizona", "AZ"), ("arkansas", "AR"),
  ("california", "CA"), ("colorado", "CO"), ("connecticut", "CT"), ("delaware", "DE"),
  ("florida", "FL"), ("georgia", "GA"), ("hawaii", "HI"), ("idaho", "ID"),
  ("illinois", "IL"), ("indiana", "IN"), ("iowa", "IA"), ("kansas", "KS"),
  ("kentucky", "KY"), ("louisiana", "LA"), ("maine", "ME"), ("maryland", "MD"),
  ("massachusetts", "MA"), ("michigan", "MI"), ("minnesota", "MN"), ("mississippi", "MS"),
  ("missouri", "MO"), ("montana", "MT"), ("nebraska", "NE"), ("nevada", "NV"),
  ("new hampshire", "NH"), ("new jersey", "NJ"), ("new mexico", "NM"), ("new york", "NY"),
  ("north carolina", "NC"), ("north dakota", "ND"), ("ohio", "OH"), ("oklahoma", "OK"),
  ("oregon", "OR"), ("pennsylvania", "PA"), ("rhode island", "RI"), ("south carolina", "SC"),
  ("south dakota", "SD"), ("tennessee", "TN"), ("texas", "TX"), ("utah", "UT"),
  ("vermont", "VT"), ("virginia", "VA"), ("washington", "WA"), ("west virginia", "WV"),
  ("wisconsin", "WI"), ("wyoming", "WY"), ("district of columbia", "DC"), ("al", "AL"),
  ("ak", "AK"), ("az", "AZ"), ("ar", "AR"), ("ca", "CA"),
  ("co", "CO"), ("ct", "CT"), ("de", "DE"), ("fl", "FL"),
  ("ga", "GA"), ("hi", "HI"), ("id", "ID"), ("il", "IL"),
  ("in", "IN"), ("ia", "IA"), ("ks", "KS"), ("ky", "KY"),
  ("la", "LA"), ("me", "ME"), ("md", "MD"), ("ma", "MA"),
  ("mi", "MI"), ("mn", "MN"), ("ms", "MS"), ("mo", "MO"),
  ("mt", "MT"), ("ne", "NE"), ("nv", "NV"), ("nh", "NH"),
  ("nj", "NJ"), ("nm", "NM"), ("ny", "NY"), ("nc", "NC"),
  ("nd", "ND"), ("oh", "OH"), ("ok", "OK"), ("or", "OR"),
  ("pa", "PA"), ("ri", "RI"), ("sc", "SC"), ("sd", "SD"),
  ("tn", "TN"), ("tx", "TX"), ("ut", "UT"), ("vt", "VT"),
  ("va", "VA"), ("wa", "WA"), ("wv", "WV"), ("wi", "WI"),
  ("wy", "WY"), ("dc", "DC"), ("ontario", "ON"), ("quebec", "QC"),
  ("british columbia", "BC"), ("alberta", "AB"), ("manitoba", "MB"), ("saskatchewan", "SK"),
  ("nova scotia", "NS"), ("new brunswick", "NB"), ("newfoundland", "NL"), ("prince edward island", "PE"),
  ("on", "ON"), ("qc", "QC"), ("bc", "BC"), ("ab", "AB"),
  ("mb", "MB"), ("sk", "SK")
]

def SPORT_MAPPINGS : List (String × Int) := [
  ("football", 1),
  ("american football", 1),
  ("basketball", 2),
  ("wrestling", 3),
  ("volleyball", 4),
  ("baseball", 5),
  ("soccer", 6),
  ("lacrosse", 7),
  ("golf", 8),
  ("gymnastics", 9),
  ("softball", 10),
  ("swimming", 11),
  ("track", 12),
  ("track and field", 12),
  ("hockey", 13),
  ("ice hockey", 13),
  ("field hockey", 14),
  ("water polo", 15),
  ("cheer", 16),
  ("dance", 17),
  ("cross country", 19),
  ("xc", 19),
  ("tennis", 22),
  ("rugby", 21)
]

/-- Embeds `QueryBuilder.normalize_metric`: natural-language metric name to database
title, via `METRIC_MAPPINGS.get(metric.lower().strip())`. -/
def normalize_metric (metric : String) : Option String :=
  METRIC_MAPPINGS.lookup (pyStrip (pyLower metric))

/-- Embeds `QueryBuilder.normalize_state`. -/
def normalize_state (state : String) : Option String :=
  STATE_MAPPINGS.lookup (pyStrip (pyLower state))

/-- Embeds `QueryBuilder.normalize_position`: unmapped positions give `[]`. -/
def normalize_position (position : String) : List Int :=
  (POSITION_MAPPINGS.lookup (pyStrip (pyLower position))).getD []

/-- Embeds `QueryBuilder.normalize_sport`. -/
def normalize_sport (sport : String) : Option Int :=
  SPORT_MAPPINGS.lookup (pyStrip (pyLower sport))

/-- ASCII letter or digit, i.e. the regex class `[a-zA-Z0-9]`. -/
def isAsciiAlnum (c : Char) : Bool :=
  ('a' ≤ c && c ≤ 'z') || ('A' ≤ c && c ≤ 'Z') || ('0' ≤ c && c ≤ '9')

/-- Embeds `QueryBuilder._make_alias`:
`re.sub(r'[^a-zA-Z0-9]', '_', metric_name.lower())[:20]`. -/
def make_alias (metric_name : String) : String :=
  String.mk (((pyLower metric_name).data.map
    (fun c => if isAsciiAlnum c then c else '_')).take 20)

/-- Dataclass `MetricFilter` (values embedded as exact rationals). -/
structure MetricFilter where
  metric_name : String
  operator : String
  value : ℚ
  sqlAlias : String
  deriving Repr, DecidableEq

/-- Dataclass `SearchFilters`. -/
structure SearchFilters where
  metrics : List MetricFilter
  positions : List Int
  state : Option String
  graduation_year : Option Int
  sport_id : Option Int
  limit : Int := 10
  verified_only : Bool := false
  deriving Repr

/-- The fixed base SELECT columns of `build_athlete_search_query`. -/
def baseSelectParts : List String := [
  "u.user_id", "u.first_name", "u.last_name", "u.graduation_year", "u.avatar_uri",
  "l.city", "l.province", "l.country",
  "p.name as position_name", "s.name as sport_name",
  "(SELECT COUNT(*) FROM film f WHERE f.user_id = u.user_id AND f.visibility = 2) as film_count"]

/-- The SQL text of one metric LEFT JOIN (the f-string used for both the
Filter joins and the `include_metrics` joins). -/
def mkMetricJoin (a name : String) : String :=
  "\nLEFT JOIN metrics m_" ++ a ++ " ON u.user_id = m_" ++ a ++ ".user_id\n    AND m_"
    ++ a ++ ".title = " ++ String.mk [sq] ++ name ++ String.mk [sq]
    ++ "\n    AND m_" ++ a ++ ".is_current = 1"

/-- One verification predicate, appended to WHERE when `verified_only`. -/
def mkVerifiedPred (a : String) : String := "m_" ++ a ++ ".verified = 1"

/-- One metric filter condition in the WHERE clause. -/
def mkMetricCond (mf : MetricFilter) : String :=
  "CAST(m_" ++ mf.sqlAlias ++ ".value AS DECIMAL(10,2)) " ++ mf.operator ++ " " ++ toString mf.value

/-- The parts assembled by `QueryBuilder.build_athlete_search_query`.
`joinedMetrics` records, per emitted metric join and in emission order, the
SQL alias and the metric title it joins on; `metric_joins` is the rendered
join text; `verified_preds` is the sublist of `where_parts` appended by the
`verified_only` loop. -/
structure BuiltQuery where
  select_parts : List String
  joinedMetrics : List (String × String)
  metric_joins : List String
  where_parts : List String
  verified_preds : List String
  order_by : String
  deriving Repr

/-- Embeds `QueryBuilder.build_athlete_search_query(filters, include_metrics)`.
Joins: one per entry of `filters.metrics` (no deduplication among them),
then one per entry of `include_metrics` whose alias differs from every
Filter alias (`if not any(mf.alias == alias for mf in filters.metrics)`).
Verification predicates: one per entry of `filters.metrics` when
`verified_only`, none otherwise. -/
def build_athlete_search_query (filters : SearchFilters)
    (include_metrics : List String) : BuiltQuery :=
  let filterJoins := filters.metrics.map (fun mf => (mf.sqlAlias, mf.metric_name))
  let includeJoins := include_metrics.filterMap (fun name =>
    let a := make_alias name
    if filters.metrics.any (fun mf => mf.sqlAlias == a) then none else some (a, name))
  let joined := filterJoins ++ includeJoins
  let verified_preds :=
    if filters.verified_only then filters.metrics.map (fun mf => mkVerifiedPred mf.sqlAlias)
    else []
  { select_parts := baseSelectParts ++ joined.map (fun p => "m_" ++ p.1 ++ ".value as " ++ p.1)
    joinedMetrics := joined
    metric_joins := joined.map (fun p => mkMetricJoin p.1 p.2)
    where_parts :=
      ["u.type = 1", "u.visibility = 2"]
      ++ (match filters.state with
          | some st => ["l.province = " ++ String.mk [sq] ++ st ++ String.mk [sq]]
          | none => [])
      ++ (match filters.graduation_year with
          | some y => ["u.graduation_year = " ++ toString y]
          | none => [])
      ++ (match filters.sport_id with
          | some sid => ["c.sport_id = " ++ toString sid]
          | none => [])
      ++ (if filters.positions.isEmpty then []
          else ["up.position_id IN (" ++ String.intercalate "," (filters.positions.map toString) ++ ")"])
      ++ filters.metrics.map mkMetricCond
      ++ verified_preds
    verified_preds := verified_preds
    order_by :=
      match filters.metrics with
      | [] => ""
      | mf :: _ =>
        "ORDER BY CAST(m_" ++ mf.sqlAlias ++ ".value AS DECIMAL(10,2)) "
          ++ (if LOWER_IS_BETTER.contains mf.metric_name then "ASC" else "DESC") }

/-- The final SQL string assembled from the parts (the closing f-string of
`build_athlete_search_query`, before `.strip()`). -/
def renderQuery (filters : SearchFilters) (include_metrics : List String) : String :=
  let bq := build_athlete_search_query filters include_metrics
  "\nSELECT DISTINCT\n    " ++ String.intercalate ", " bq.select_parts
    ++ "\nFROM users u\nJOIN locations l ON u.location_id = l.location_id"
    ++ "\nLEFT JOIN career c ON u.user_id = c.user_id AND c.is_current = 1 AND c.visibility = 1"
    ++ "\nLEFT JOIN user_positions up ON c.career_id = up.career_id"
    ++ "\nLEFT JOIN positions p ON up.position_id = p.position_id"
    ++ "\nLEFT JOIN sports s ON c.sport_id = s.sport_id"
    ++ "\n" ++ String.intercalate "\n" bq.metric_joins
    ++ "\nWHERE " ++ String.intercalate " AND " bq.where_parts
    ++ "\n" ++ bq.order_by
    ++ "\nLIMIT " ++ toString filters.limit ++ "\n"

/-! ## nfl_benchmark_agent.py -/

/-- Fuel-driven floor-log2 on ℕ, structurally recursive so the kernel can
evaluate it. -/
def log2fuel : ℕ → ℕ → ℕ
  | 0, _ => 0
  | f+1, n => if n ≤ 1 then 0 else log2fuel f (n / 2) + 1

/-- floor(log2 n) for n ≥ 1 (and 0 at 0). -/
def log2N (n : ℕ) : ℕ := log2fuel n n

/-- Integer powers of two in ℚ, kernel-computable (no zpow instances). -/
def pow2 : ℤ → ℚ
  | .ofNat n => ((2^n : ℕ) : ℚ)
  | .negSucc n => 1 / ((2^(n+1) : ℕ) : ℚ)

/-- floor(log2 q) for a positive rational q = a/b: with la = floor(log2 a)
and lb = floor(log2 b) the answer is la - lb - 1 exactly when a/b < 2^(la-lb). -/
def ilog2q (q : ℚ) : ℤ :=
  let a := q.num.toNat
  let b := q.den
  let la := log2N a
  let lb := log2N b
  if 2 ^ lb * a < 2 ^ la * b then (la : ℤ) - lb - 1 else (la : ℤ) - lb

/-- Round a rational to the nearest integer, ties to even. -/
def rtne (q : ℚ) : ℤ :=
  let fl := ⌊q⌋
  let r := q - fl
  if r < 1/2 then fl
  else if 1/2 < r then fl + 1
  else if fl % 2 = 0 then fl else fl + 1

/-- Round a nonnegative rational to the nearest IEEE-754 binary64 value
(round-to-nearest, ties-to-even), subnormals included: the grid step is
2^(max(-1074, floor(log2 q) - 52)).  The two uses below apply it to
`better_count / len(values)` (in [0, 1]) and to that result times 100
(at most 100), so negative inputs and overflow to infinity do not arise. -/
def fl64 (q : ℚ) : ℚ :=
  if q ≤ 0 then 0
  else
    let E : ℤ := max (-1074) (ilog2q q - 52)
    (rtne (q / pow2 E) : ℚ) * pow2 E

/-- Embeds `calculate_percentile(value, values, lower_is_better)`.
The Python expression `int((better_count / len(values)) * 100)` performs two
correctly-rounded binary64 operations — the true division `k / n` and the
product by 100 — and then truncates toward zero (= floor, the value being
nonnegative); both roundings are embedded exactly via `fl64`. -/
def calculate_percentile (value : ℚ) (values : List ℚ)
    (lower_is_better : Bool) : ℕ :=
  if values = [] then 50
  else
    let better_count :=
      if lower_is_better then (values.filter (fun v => value < v)).length
      else (values.filter (fun v => v < value)).length
    let percentile :=
      (⌊fl64 (fl64 ((better_count : ℚ) / (values.length : ℚ)) * 100)⌋).toNat
    min 99 (max 1 percentile)

/-- One NFL athlete row as read by `find_player_comparisons`: the name and
the (optional) value found under the requested metric key. -/
structure NFLAthlete where
  name : String
  metricValue : Option ℚ
  deriving Repr, DecidableEq

/-- The tolerance for "similar": within 2% for times, 5% for measurements. -/
def fpcTolerance (lower_is_better : Bool) : ℚ :=
  if lower_is_better then 2/100 else 5/100

/-- Embeds `diff = abs(value - nfl_value) / nfl_value if nfl_value else 0`. -/
def relDiff (value nfl : ℚ) : ℚ :=
  if nfl = 0 then 0 else |value - nfl| / nfl

/-- The bucket `find_player_comparisons` assigns to one population member. -/
inductive Bucket where
  | better
  | similar
  | worse
  deriving Repr, DecidableEq

/-- The branch structure of the loop body of `find_player_comparisons`. -/
def categorize (value nfl : ℚ) (lower_is_better : Bool) : Bucket :=
  if relDiff value nfl < fpcTolerance lower_is_better then .similar
  else if lower_is_better then
    (if value < nfl then .better else .worse)
  else
    (if value > nfl then .better else .worse)

/-- Formatting of a similar_to entry: `f"{name} ({nfl_value})"`. -/
def fmtSimilar (name : String) (nfl : ℚ) : String :=
  name ++ " (" ++ toString nfl ++ ")"

/-- Formatting of a better_than / worse_than entry: seconds suffix for
time metrics, inches quote for measurements. -/
def fmtUnit (lower_is_better : Bool) (name : String) (nfl : ℚ) : String :=
  name ++ " (" ++ toString nfl ++ (if lower_is_better then "s)" else "\")")

/-- The loop of `find_player_comparisons`, building the three untruncated
lists in traversal order; members with no value under the metric key are
skipped. -/
def fpcLoop (value : ℚ) (lower_is_better : Bool) :
    List NFLAthlete → List String × List String × List String
  | [] => ([], [], [])
  | a :: rest =>
    let r := fpcLoop value lower_is_better rest
    match a.metricValue with
    | none => r
    | some nfl =>
      match categorize value nfl lower_is_better with
      | .similar => (r.1, fmtSimilar a.name nfl :: r.2.1, r.2.2)
      | .better => (fmtUnit lower_is_better a.name nfl :: r.1, r.2.1, r.2.2)
      | .worse => (r.1, r.2.1, fmtUnit lower_is_better a.name nfl :: r.2.2)

/-- Embeds `find_player_comparisons(value, athletes, metric_key, lower_is_better,
limit)`: the three bucket lists, each truncated to `limit`. -/
def find_player_comparisons (value : ℚ) (athletes : List NFLAthlete)
    (lower_is_better : Bool) (limit : ℕ := 3) :
    List String × List String × List String :=
  let r := fpcLoop value lower_is_better athletes
  (r.1.take limit, r.2.1.take limit, r.2.2.take limit)

/-! ## camp_finder_agent.py -/

/-- Python substring containment `needle in hay`. -/
def pyContains (needle hay : String) : Bool :=
  decide (needle.data <:+: hay.data)

/-- One event dict as read and written by `CampFinderAgent._rank_events`.
`coaches` is the (possibly absent, here empty) list of attending coaches;
`verified` / `testing` are the truthiness of those keys. -/
structure CampEvent where
  location : String
  distance_miles : Option ℚ
  cost : Option ℚ
  date : Option String
  verified : Bool
  coaches : List String
  testing : Bool
  fit_score : Int
  fit_reasons : List String
  deriving Repr, DecidableEq

/-- The body of the `for event in events` loop of `_rank_events`: the
fit score (baseline 100) and ordered reasons list computed for one event.
`parseDays` embeds `(datetime.strptime(d, %Y-%m-%d) - datetime.now()).days`
at the fixed current time; `none` is the `ValueError` swallowed by the
bare `except`. -/
def computeScore (parseDays : String → Option Int) (athlete_city : String)
    (e : CampEvent) : Int × List String :=
  let score : Int := 100
  let reasons : List String := []
  -- Distance scoring
  let sr : Int × List String :=
    if pyContains (pyLower athlete_city) (pyLower e.location) then
      (score + 20, reasons ++ ["In your city"])
    else
      match e.distance_miles with
      | some d =>
        if d = 0 then (score, reasons)
        else if d < 50 then (score + 15, reasons ++ ["Very close"])
        else if d < 150 then (score + 10, reasons ++ ["Reasonable distance"])
        else (score - 10, reasons ++ ["Far from home"])
      | none => (score, reasons)
  -- Cost scoring
  let sr : Int × List String :=
    match e.cost with
    | some c =>
      if c = 0 then sr
      else if c < 100 then (sr.1 + 15, sr.2 ++ ["Affordable"])
      else if c < 200 then (sr.1 + 5, sr.2)
      else if c > 300 then (sr.1 - 15, sr.2 ++ ["Expensive"])
      else sr
    | none => sr
  -- Timing scoring
  let sr : Int × List String :=
    match e.date with
    | some d =>
      if d = "" then sr
      else
        match parseDays d with
        | some days =>
          if 14 ≤ days ∧ days ≤ 45 then (sr.1 + 15, sr.2 ++ ["Good timing"])
          else if days < 7 then (sr.1 - 10, sr.2 ++ ["Very soon - may be too late"])
          else if days > 90 then (sr.1 - 5, sr.2 ++ ["Far in future"])
          else sr
        | none => sr
    | none => sr
  -- Verification bonus
  let sr : Int × List String := if e.verified then (sr.1 + 10, sr.2 ++ ["Verified event"]) else sr
  -- Coaches attending
  let sr : Int × List String := if e.coaches ≠ [] then (sr.1 + 10, sr.2 ++ ["College coaches attending"]) else sr
  -- Testing/evaluation
  let sr : Int × List String := if e.testing then (sr.1 + 5, sr.2 ++ ["Official testing"]) else sr
  sr

/-- Embeds the writes `event.fit_score = score; event.fit_reasons = reasons`. -/
def updateEvent (parseDays : String → Option Int) (athlete_city : String)
    (e : CampEvent) : CampEvent :=
  let sr := computeScore parseDays athlete_city e
  { e with fit_score := sr.1, fit_reasons := sr.2 }

/-- The order of `sorted(events, key=..fit_score.., reverse=True)`:
descending fit score (a stable sort, as Python's). -/
def fitGE (a b : CampEvent) : Prop := b.fit_score ≤ a.fit_score

instance : DecidableRel fitGE := fun a b =>
  inferInstanceAs (Decidable (b.fit_score ≤ a.fit_score))

instance : IsTotal CampEvent fitGE :=
  ⟨fun a b => le_total b.fit_score a.fit_score⟩

instance : IsTrans CampEvent fitGE :=
  ⟨fun _ _ _ h h' => le_trans h' h⟩

/-- Embeds `CampFinderAgent._rank_events(events, athlete)`: score every event,
then stably sort by descending fit score. -/
def rank_events (parseDays : String → Option Int) (athlete_city : String)
    (events : List CampEvent) : List CampEvent :=
  List.insertionSort fitGE (events.map (updateEvent parseDays athlete_city))

/-! ## parse_metric_condition and its four regular expressions

A small backtracking matcher over `List Char`, enumerating the ways a piece
of pattern can consume a prefix of the input in the priority order of
Python's `re` (greedy quantifiers longest first, alternation left first,
leftmost starting position wins). -/

/-- A pattern piece: every (consumed, rest) split, best first. -/
abbrev PM := List Char → List (List Char × List Char)

/-- The empty pattern. -/
def pmEps : PM := fun cs => [([], cs)]

/-- A literal. -/
def pmLit (lit : List Char) : PM := fun cs =>
  if lit.isPrefixOf cs then [(lit, cs.drop lit.length)] else []

/-- A character class. -/
def pmCls (p : Char → Bool) : PM := fun cs =>
  match cs with
  | c :: rest => if p c then [([c], rest)] else []
  | [] => []

/-- Concatenation; the left piece's priority dominates. -/
def pmSeq (a b : PM) : PM := fun cs =>
  (a cs).flatMap (fun pr => (b pr.2).map (fun qr => (pr.1 ++ qr.1, qr.2)))

/-- Greedy Kleene star over a character class: longest match first. -/
def pmStar (p : Char → Bool) : PM := fun cs =>
  let run := cs.takeWhile p
  (List.range (run.length + 1)).reverse.map (fun k => (cs.take k, cs.drop k))

/-- Greedy `+` over a character class. -/
def pmPlus (p : Char → Bool) : PM := pmSeq (pmCls p) (pmStar p)

/-- Greedy `?`: the piece first, then the empty match. -/
def pmOpt (a : PM) : PM := fun cs => a cs ++ [([], cs)]

/-- Ordered alternation of literals. -/
def pmAlts (ss : List (List Char)) : PM := fun cs => ss.flatMap (fun s => pmLit s cs)

/-- The number group `(\d+\.?\d*)` common to all four patterns. -/
def pmNum : PM :=
  pmSeq (pmPlus Char.isDigit) (pmSeq (pmOpt (pmLit ['.'])) (pmStar Char.isDigit))

/-- Pattern `\s*` for Python's `\s` class. -/
def wsStar : PM := pmStar pyIsSpace

/-- Pattern `\s+`. -/
def wsPlus : PM := pmPlus pyIsSpace

/-- All matches of the common shape `pre (\d+\.?\d*) mid (alt1|alt2|...) suf`
anchored at the start of `cs`, in backtracking priority order; a result is
the two captured groups (number, metric token). -/
def tryShapeAt (pre mid : PM) (alts : List (List Char)) (suf : PM)
    (cs : List Char) : List (List Char × List Char) :=
  (pre cs).flatMap fun r1 =>
  (pmNum r1.2).flatMap fun r2 =>
  (mid r2.2).flatMap fun r3 =>
  alts.flatMap fun tok =>
  (pmLit tok r3.2).flatMap fun r4 =>
  (suf r4.2).map fun _ => (r2.1, tok)

/-- Embeds `re.search`: scan starting positions left to right, return the first
match found, best-priority first within a position. -/
def reSearch (f : List Char → List α) : List Char → Option α
  | [] => (f []).head?
  | c :: rest =>
    match (f (c :: rest)).head? with
    | some r => some r
    | none => reSearch f rest

/-- Pattern `sub[- ]?(\d+\.?\d*)\s*(?:second)?\s*(40|forty|vert|vertical|shuttle)`. -/
def searchSub : List Char → Option (List Char × List Char) :=
  reSearch (tryShapeAt
    (pmSeq (pmLit "sub".data) (pmOpt (pmCls (fun c => c == '-' || c == ' '))))
    (pmSeq wsStar (pmSeq (pmOpt (pmLit "second".data)) wsStar))
    ["40".data, "forty".data, "vert".data, "vertical".data, "shuttle".data]
    pmEps)

/-- Pattern `(?:under|below)\s+(\d+\.?\d*)\s*(?:second|s|inch|in)?\s*(40|forty|vert|vertical|shuttle|bench)`. -/
def searchUnder : List Char → Option (List Char × List Char) :=
  reSearch (tryShapeAt
    (pmSeq (pmAlts ["under".data, "below".data]) wsPlus)
    (pmSeq wsStar (pmSeq (pmOpt (pmAlts ["second".data, "s".data, "inch".data, "in".data])) wsStar))
    ["40".data, "forty".data, "vert".data, "vertical".data, "shuttle".data, "bench".data]
    pmEps)

/-- Pattern `(?:over|above)\s+(\d+\.?\d*)\s*(?:inch|in|"|\x27)?\s*(vert|vertical|broad|bench|height|weight)`. -/
def searchOver : List Char → Option (List Char × List Char) :=
  reSearch (tryShapeAt
    (pmSeq (pmAlts ["over".data, "above".data]) wsPlus)
    (pmSeq wsStar (pmSeq (pmOpt (pmAlts ["inch".data, "in".data, [Char.ofNat 34], [sq]])) wsStar))
    ["vert".data, "vertical".data, "broad".data, "bench".data, "height".data, "weight".data]
    pmEps)

/-- Pattern `(\d+\.?\d*)\s*(40|forty|shuttle|5-10-5)\s*(?:or better|or less)`. -/
def searchBetter : List Char → Option (List Char × List Char) :=
  reSearch (tryShapeAt
    pmEps
    wsStar
    ["40".data, "forty".data, "shuttle".data, "5-10-5".data]
    (pmSeq wsStar (pmAlts ["or better".data, "or less".data])))

/-- Embeds `float(...)` of a captured `\d+\.?\d*` group, as an exact rational. -/
def parseDecimal (cs : List Char) : ℚ :=
  let intPart := cs.takeWhile (fun c => c != '.')
  let frac := (cs.dropWhile (fun c => c != '.')).drop 1
  let digitsToNat : List Char → ℕ := fun ds =>
    ds.foldl (fun n c => 10 * n + (c.toNat - 48)) 0
  ((digitsToNat intPart : ℕ) : ℚ) + ((digitsToNat frac : ℕ) : ℚ) / ((10 : ℚ) ^ frac.length)

/-- The `MetricFilter` returned by a successful block of
`parse_metric_condition`, given the operator of that block. -/
def mkParsedFilter (op : String) (name : String) (v : List Char) : MetricFilter :=
  { metric_name := name, operator := op, value := parseDecimal v,
    sqlAlias := make_alias name }

/-- Fourth block: `better_pattern` with operator `<=`. -/
def tryBetter (t : List Char) : Option MetricFilter :=
  match searchBetter t with
  | some r => (normalize_metric (String.mk r.2)).map (mkParsedFilter "<=" · r.1)
  | none => none

/-- Third block: `over_pattern` with operator `>`, else fall through. -/
def tryOver (t : List Char) : Option MetricFilter :=
  match searchOver t with
  | some r =>
    match normalize_metric (String.mk r.2) with
    | some name => some (mkParsedFilter ">" name r.1)
    | none => tryBetter t
  | none => tryBetter t

/-- Second block: `under_pattern` with operator `<`, else fall through. -/
def tryUnder (t : List Char) : Option MetricFilter :=
  match searchUnder t with
  | some r =>
    match normalize_metric (String.mk r.2) with
    | some name => some (mkParsedFilter "<" name r.1)
    | none => tryOver t
  | none => tryOver t

/-- Embeds `QueryBuilder.parse_metric_condition(text)`: lower-case the text, then
try the four patterns in source order, returning at the first block whose
regex matches and whose metric token normalizes. -/
def parse_metric_condition (text : String) : Option MetricFilter :=
  let t := (pyLower text).data
  match searchSub t with
  | some r =>
    match normalize_metric (String.mk r.2) with
    | some name => some (mkParsedFilter "<" name r.1)
    | none => tryUnder t
  | none => tryUnder t

/-- The spec's first phrase shape, `sub-N metric`, as a standalone parse:
pattern match plus successful normalization. -/
def shapeSub (text : String) : Option MetricFilter :=
  (searchSub (pyLower text).data).bind fun r =>
    (normalize_metric (String.mk r.2)).map (mkParsedFilter "<" · r.1)

/-- The spec's second phrase shape, `under/below N metric`. -/
def shapeUnder (text : String) : Option MetricFilter :=
  (searchUnder (pyLower text).data).bind fun r =>
    (normalize_metric (String.mk r.2)).map (mkParsedFilter "<" · r.1)

/-- The spec's third phrase shape, `over/above N metric`. -/
def shapeOver (text : String) : Option MetricFilter :=
  (searchOver (pyLower text).data).bind fun r =>
    (normalize_metric (String.mk r.2)).map (mkParsedFilter ">" · r.1)

/-- The spec's fourth phrase shape, `N metric or better/or less`. -/
def shapeBetter (text : String) : Option MetricFilter :=
  (searchBetter (pyLower text).data).bind fun r =>
    (normalize_metric (String.mk r.2)).map (mkParsedFilter "<=" · r.1)

/-! ## Theorems -/

/-- Char order is the order of the underlying code points. -/
theorem char_le_iff {a b : Char} : a ≤ b ↔ a.toNat ≤ b.toNat := Iff.rfl

/-- Applying `Char.ofNat` at a valid code point keeps the code point. -/
theorem charToNat_ofNat (n : ℕ) (h : n.isValidChar) : (Char.ofNat n).toNat = n := by
  rw [Char.ofNat, dif_pos h]
  rfl

/-- The map `pyCharLower` never produces an uppercase ASCII letter. -/
theorem pyCharLower_not_upper (c : Char) : ¬('A' ≤ pyCharLower c ∧ pyCharLower c ≤ 'Z') := by
  unfold pyCharLower
  split
  next h =>
    have h1 : 65 ≤ c.toNat := char_le_iff.mp h.1
    have h2 : c.toNat ≤ 90 := char_le_iff.mp h.2
    have hv : (c.toNat + 32).isValidChar := Or.inl (by omega)
    have ht : (Char.ofNat (c.toNat + 32)).toNat = c.toNat + 32 := charToNat_ofNat _ hv
    intro hcon
    have hz : ('Z' : Char).toNat = 90 := rfl
    have := char_le_iff.mp hcon.2
    rw [ht, hz] at this
    omega
  next h => exact h

/-- A character may appear in a `make_alias` result only if it is a
lowercase ASCII letter, an ASCII digit, or an underscore. -/
def aliasCharOK (x : Char) : Bool :=
  ('a' ≤ x && x ≤ 'z') || ('0' ≤ x && x ≤ '9') || x == '_'

/-- The character substitution inside `make_alias` always lands in
`aliasCharOK`. -/
theorem aliasCharOK_subst (c : Char) :
    aliasCharOK (if isAsciiAlnum (pyCharLower c) then pyCharLower c else '_') = true := by
  by_cases h : isAsciiAlnum (pyCharLower c) = true
  · rw [if_pos h]
    unfold isAsciiAlnum at h
    unfold aliasCharOK
    rw [Bool.or_eq_true, Bool.or_eq_true] at h
    rw [Bool.or_eq_true, Bool.or_eq_true]
    rcases h with (h | h) | h
    · exact Or.inl (Or.inl h)
    · rw [Bool.and_eq_true, decide_eq_true_eq, decide_eq_true_eq] at h
      exact absurd h (pyCharLower_not_upper c)
    · exact Or.inl (Or.inr h)
  · rw [if_neg h]
    rfl

/-- C10: for every metric name string, `_make_alias` returns a string of
length at most 20 whose characters are only lowercase ASCII letters, digits
and underscores. -/
theorem make_alias_safe (s : String) :
    (make_alias s).length ≤ 20 ∧
    (make_alias s).data.all aliasCharOK = true := by
  constructor
  · show ((((pyLower s).data.map _).take 20).length) ≤ 20
    exact le_trans (List.length_take_le _ _) (le_refl _)
  · rw [List.all_eq_true]
    intro c hc
    have hc' := List.mem_of_mem_take hc
    obtain ⟨c0, _, rfl⟩ := List.mem_map.1 hc'
    obtain ⟨c1, _, rfl⟩ := List.mem_map.1 (by simpa [pyLower] using ‹c0 ∈ (pyLower s).data›)
    exact aliasCharOK_subst c1

/-- C5: `calculate_percentile` on an empty population returns exactly 50
for every subject value and direction flag. -/
theorem calculate_percentile_empty (v : ℚ) (lib : Bool) :
    calculate_percentile v [] lib = 50 := rfl

/-- Monotonicity of filter length in the predicate. -/
theorem filter_length_mono {α : Type} (l : List α) {p q : α → Bool}
    (h : ∀ a, p a = true → q a = true) :
    (l.filter p).length ≤ (l.filter q).length :=
  (List.monotone_filter_right l h).length_le

/-- Identification of `pow2` with the integer power of two. -/
theorem pow2_eq_zpow (e : ℤ) : pow2 e = (2:ℚ)^e := by
  cases e with
  | ofNat n =>
    show ((2^n : ℕ) : ℚ) = (2:ℚ)^(n : ℤ)
    rw [zpow_natCast]
    push_cast
    rfl
  | negSucc n =>
    show 1 / ((2^(n+1) : ℕ) : ℚ) = (2:ℚ)^(Int.negSucc n)
    rw [zpow_negSucc, one_div]
    congr 1
    push_cast
    rfl

/-- Powers of two are positive. -/
theorem pow2_pos (e : ℤ) : 0 < pow2 e := by
  rw [pow2_eq_zpow]
  exact zpow_pos (by norm_num) e

/-- Powers of two are monotone in the exponent. -/
theorem pow2_mono {a b : ℤ} (h : a ≤ b) : pow2 a ≤ pow2 b := by
  rw [pow2_eq_zpow, pow2_eq_zpow]
  exact zpow_le_zpow_right₀ (by norm_num) h

/-- Powers of two turn sums into products. -/
theorem pow2_add (a b : ℤ) : pow2 (a + b) = pow2 a * pow2 b := by
  rw [pow2_eq_zpow, pow2_eq_zpow, pow2_eq_zpow]
  exact zpow_add₀ (by norm_num) a b

/-- A nonnegative-exponent power of two as an integer cast. -/
theorem pow2_ofNonneg {e : ℤ} (h : 0 ≤ e) : pow2 e = ((2^e.toNat : ℤ) : ℚ) := by
  rw [pow2_eq_zpow]
  conv_lhs => rw [← Int.toNat_of_nonneg h]
  rw [zpow_natCast]
  push_cast
  rfl

/-- The fuel-driven log2 satisfies the floor-log2 bounds when fueled. -/
theorem log2fuel_spec (f : ℕ) : ∀ n, 1 ≤ n → n ≤ f →
    2 ^ log2fuel f n ≤ n ∧ n < 2 ^ (log2fuel f n + 1) := by
  induction f with
  | zero => intro n h1 h2; omega
  | succ f ih =>
    intro n h1 h2
    by_cases hn : n ≤ 1
    · have hn1 : n = 1 := by omega
      subst hn1
      simp [log2fuel]
    · have hrec := ih (n / 2) (by omega) (by omega)
      have hl : log2fuel (f+1) n = log2fuel f (n / 2) + 1 := by
        simp [log2fuel, hn]
      rw [hl]
      obtain ⟨ha, hb⟩ := hrec
      constructor
      · have he : 2 ^ (log2fuel f (n / 2) + 1) = 2 * 2 ^ log2fuel f (n / 2) := by ring
        rw [he]
        omega
      · have he : 2 ^ (log2fuel f (n / 2) + 1 + 1) = 2 * 2 ^ (log2fuel f (n / 2) + 1) := by ring
        rw [he]
        omega

/-- Floor-log2 bounds for `log2N`. -/
theorem log2N_spec {n : ℕ} (h : 1 ≤ n) :
    2 ^ log2N n ≤ n ∧ n < 2 ^ (log2N n + 1) :=
  log2fuel_spec n n h le_rfl

/-- Bridge: a power of two below a ratio of naturals, in ℕ terms. -/
theorem pow2_le_div_iff (a b x y : ℕ) (hb : 0 < b) :
    pow2 ((x:ℤ) - (y:ℤ)) ≤ (a:ℚ)/(b:ℚ) ↔ 2^x * b ≤ a * 2^y := by
  rw [pow2_eq_zpow, zpow_sub₀ (by norm_num : (2:ℚ) ≠ 0), zpow_natCast, zpow_natCast,
    div_le_div_iff (by positivity) (by exact_mod_cast hb)]
  exact_mod_cast Iff.rfl

/-- Bridge: a ratio of naturals below a power of two, in ℕ terms. -/
theorem div_lt_pow2_iff (a b x y : ℕ) (hb : 0 < b) :
    (a:ℚ)/(b:ℚ) < pow2 ((x:ℤ) - (y:ℤ)) ↔ a * 2^y < 2^x * b := by
  rw [pow2_eq_zpow, zpow_sub₀ (by norm_num : (2:ℚ) ≠ 0), zpow_natCast, zpow_natCast,
    div_lt_div_iff (by exact_mod_cast hb) (by positivity)]
  exact_mod_cast Iff.rfl

/-- The binade bounds of `ilog2q` on positive rationals. -/
theorem ilog2q_spec {q : ℚ} (hq : 0 < q) :
    pow2 (ilog2q q) ≤ q ∧ q < pow2 (ilog2q q + 1) := by
  have hnum : 0 < q.num := Rat.num_pos.mpr hq
  simp only [ilog2q]
  set a := q.num.toNat with hA
  set b := q.den with hB
  have ha1 : 1 ≤ a := by omega
  have hb1 : 0 < b := q.den_pos
  have hq_eq : q = (a:ℚ)/(b:ℚ) := by
    rw [hA, hB]
    rw [show ((q.num.toNat : ℕ) : ℚ) = ((q.num : ℤ) : ℚ) by
      rw [← Int.cast_natCast, Int.toNat_of_nonneg hnum.le]]
    exact (Rat.num_div_den q).symm
  set la := log2N a with hLA
  set lb := log2N b with hLB
  obtain ⟨hla, hla2⟩ := log2N_spec ha1
  obtain ⟨hlb, hlb2⟩ := log2N_spec (by omega : 1 ≤ b)
  by_cases hguard : 2 ^ lb * a < 2 ^ la * b
  · rw [if_pos hguard]
    constructor
    · have hx : (la : ℤ) - lb - 1 = (la : ℤ) - ((lb + 1 : ℕ) : ℤ) := by push_cast; ring
      rw [hx, hq_eq, pow2_le_div_iff _ _ _ _ hb1]
      calc 2 ^ la * b ≤ a * b := Nat.mul_le_mul hla (le_refl b)
        _ ≤ a * 2 ^ (lb + 1) := Nat.mul_le_mul (le_refl a) hlb2.le
    · have hx : (la : ℤ) - lb - 1 + 1 = (la : ℤ) - (lb : ℤ) := by ring
      rw [hx, hq_eq, div_lt_pow2_iff _ _ _ _ hb1]
      calc a * 2 ^ lb = 2 ^ lb * a := Nat.mul_comm _ _
        _ < 2 ^ la * b := hguard
  · rw [if_neg hguard]
    push_neg at hguard
    constructor
    · rw [hq_eq, pow2_le_div_iff _ _ _ _ hb1]
      calc 2 ^ la * b ≤ 2 ^ lb * a := hguard
        _ = a * 2 ^ lb := Nat.mul_comm _ _
    · have hx : (la : ℤ) - lb + 1 = ((la + 1 : ℕ) : ℤ) - (lb : ℤ) := by push_cast; ring
      rw [hx, hq_eq, div_lt_pow2_iff _ _ _ _ hb1]
      calc a * 2 ^ lb < 2 ^ (la + 1) * 2 ^ lb :=
            mul_lt_mul_of_pos_right hla2 (by positivity)
        _ ≤ 2 ^ (la + 1) * b := Nat.mul_le_mul (le_refl _) hlb

/-- Rounding never drops below the floor. -/
theorem floor_le_rtne (q : ℚ) : ⌊q⌋ ≤ rtne q := by
  simp only [rtne]
  split_ifs <;> omega

/-- Rounding never exceeds the floor plus one. -/
theorem rtne_le_floor_add_one (q : ℚ) : rtne q ≤ ⌊q⌋ + 1 := by
  simp only [rtne]
  split_ifs <;> omega

/-- Rounding fixes the integers. -/
theorem rtne_intCast (n : ℤ) : rtne ((n : ℤ) : ℚ) = n := by
  simp only [rtne, Int.floor_intCast]
  rw [if_pos (by norm_num)]

/-- Round-to-nearest-ties-even is monotone. -/
theorem rtne_mono {x y : ℚ} (h : x ≤ y) : rtne x ≤ rtne y := by
  have hf : ⌊x⌋ ≤ ⌊y⌋ := Int.floor_le_floor h
  rcases eq_or_lt_of_le hf with heq | hlt
  · simp only [rtne]
    rw [← heq]
    have h1 : x - ⌊x⌋ ≤ y - ⌊x⌋ := by
      have : ((⌊x⌋ : ℤ) : ℚ) ≤ ((⌊x⌋ : ℤ) : ℚ) := le_refl _
      linarith
    split_ifs <;> first | omega | (exfalso; linarith)
  · calc rtne x ≤ ⌊x⌋ + 1 := rtne_le_floor_add_one x
      _ ≤ ⌊y⌋ := by omega
      _ ≤ rtne y := floor_le_rtne y

/-- A nonnegative value under one half rounds to zero. -/
theorem rtne_of_nonneg_lt_half {q : ℚ} (h0 : 0 ≤ q) (h : q < 1/2) : rtne q = 0 := by
  have hf : ⌊q⌋ = 0 := Int.floor_eq_zero_iff.mpr ⟨h0, by linarith⟩
  simp only [rtne, hf]
  rw [if_pos (by push_cast; linarith)]

/-- Rounding respects an integer upper bound. -/
theorem rtne_le_of_le {q : ℚ} {n : ℤ} (h : q ≤ (n : ℚ)) : rtne q ≤ n := by
  have := rtne_mono h
  rwa [rtne_intCast] at this

/-- Rounding respects an integer lower bound. -/
theorem le_rtne_of_le {q : ℚ} {n : ℤ} (h : (n : ℚ) ≤ q) : n ≤ rtne q := by
  have := rtne_mono h
  rwa [rtne_intCast] at this

/-- Binary64 rounding of a nonnegative input is nonnegative. -/
theorem fl64_nonneg (q : ℚ) : 0 ≤ fl64 q := by
  simp only [fl64]
  split_ifs with h
  · exact le_refl _
  · push_neg at h
    have h1 : (0:ℚ) ≤ q / pow2 (max (-1074) (ilog2q q - 52)) :=
      (div_pos h (pow2_pos _)).le
    have h2 : (0:ℤ) ≤ rtne (q / pow2 (max (-1074) (ilog2q q - 52))) :=
      le_rtne_of_le (by exact_mod_cast h1)
    exact mul_nonneg (by exact_mod_cast h2) (pow2_pos _).le

/-- Floor-log2 is monotone on positive rationals. -/
theorem ilog2q_mono {x y : ℚ} (hx : 0 < x) (h : x ≤ y) : ilog2q x ≤ ilog2q y := by
  have hy : 0 < y := lt_of_lt_of_le hx h
  obtain ⟨h1, _⟩ := ilog2q_spec hx
  obtain ⟨_, h4⟩ := ilog2q_spec hy
  by_contra hc
  push_neg at hc
  have hp : pow2 (ilog2q y + 1) ≤ pow2 (ilog2q x) := pow2_mono (by omega)
  linarith

/-- Binary64 rounding is monotone on nonnegative inputs. -/
theorem fl64_mono {x y : ℚ} (h : x ≤ y) : fl64 x ≤ fl64 y := by
  by_cases hx : x ≤ 0
  · rw [show fl64 x = 0 by simp [fl64, hx]]
    exact fl64_nonneg y
  · push_neg at hx
    have hy : 0 < y := lt_of_lt_of_le hx h
    have hxe : fl64 x = (rtne (x / pow2 (max (-1074) (ilog2q x - 52))) : ℚ) *
        pow2 (max (-1074) (ilog2q x - 52)) := by
      simp [fl64, not_le.mpr hx]
    have hye : fl64 y = (rtne (y / pow2 (max (-1074) (ilog2q y - 52))) : ℚ) *
        pow2 (max (-1074) (ilog2q y - 52)) := by
      simp [fl64, not_le.mpr hy]
    rw [hxe, hye]
    have hk : ilog2q x ≤ ilog2q y := ilog2q_mono hx h
    have hE : max (-1074) (ilog2q x - 52) ≤ max (-1074) (ilog2q y - 52) :=
      max_le_max (le_refl _) (by omega)
    rcases eq_or_lt_of_le hE with hEe | hElt
    · rw [hEe]
      have hd : x / pow2 (max (-1074) (ilog2q y - 52)) ≤ y / pow2 (max (-1074) (ilog2q y - 52)) :=
        (div_le_div_right (pow2_pos _)).mpr h
      exact mul_le_mul_of_nonneg_right (by exact_mod_cast rtne_mono hd) (pow2_pos _).le
    · have hE2 : max (-1074) (ilog2q y - 52) = ilog2q y - 52 := by
        rcases le_or_lt (ilog2q y - 52) (-1074) with hc | hc
        · exfalso
          have h1 : max (-1074) (ilog2q y - 52) = -1074 := max_eq_left hc
          have h2 : (-1074 : ℤ) ≤ max (-1074) (ilog2q x - 52) := le_max_left _ _
          omega
        · exact max_eq_right hc.le
      have hE1k : ilog2q x - 52 ≤ max (-1074) (ilog2q x - 52) := le_max_right _ _
      have hkk : ilog2q x + 1 ≤ ilog2q y := by omega
      have hmid : pow2 (ilog2q x + 1) ≤ pow2 (ilog2q y) := pow2_mono (by omega)
      have hA : (rtne (x / pow2 (max (-1074) (ilog2q x - 52))) : ℚ) *
          pow2 (max (-1074) (ilog2q x - 52)) ≤ pow2 (ilog2q x + 1) := by
        have hxu : x < pow2 (ilog2q x + 1) := (ilog2q_spec hx).2
        have hdiv : x / pow2 (max (-1074) (ilog2q x - 52)) <
            pow2 (ilog2q x + 1 - max (-1074) (ilog2q x - 52)) := by
          have hstep : pow2 (ilog2q x + 1 - max (-1074) (ilog2q x - 52)) =
              pow2 (ilog2q x + 1) / pow2 (max (-1074) (ilog2q x - 52)) := by
            rw [eq_div_iff (pow2_pos _).ne', ← pow2_add]
            congr 1
            ring
          rw [hstep]
          exact (div_lt_div_right (pow2_pos _)).mpr hxu
        rcases le_or_lt 0 (ilog2q x + 1 - max (-1074) (ilog2q x - 52)) with hj | hj
        · have hint := pow2_ofNonneg hj
          have hr : rtne (x / pow2 (max (-1074) (ilog2q x - 52))) ≤
              2 ^ (ilog2q x + 1 - max (-1074) (ilog2q x - 52)).toNat :=
            rtne_le_of_le (by rw [← hint]; exact hdiv.le)
          calc (rtne (x / pow2 (max (-1074) (ilog2q x - 52))) : ℚ) *
                pow2 (max (-1074) (ilog2q x - 52))
              ≤ ((2 ^ (ilog2q x + 1 - max (-1074) (ilog2q x - 52)).toNat : ℤ) : ℚ) *
                pow2 (max (-1074) (ilog2q x - 52)) :=
                mul_le_mul_of_nonneg_right (by exact_mod_cast hr) (pow2_pos _).le
            _ = pow2 (ilog2q x + 1 - max (-1074) (ilog2q x - 52)) *
                pow2 (max (-1074) (ilog2q x - 52)) := by rw [hint]
            _ = pow2 (ilog2q x + 1) := by rw [← pow2_add]; congr 1; ring
        · have hhalf : x / pow2 (max (-1074) (ilog2q x - 52)) < 1/2 := by
            refine lt_of_lt_of_le hdiv ?_
            have hm : pow2 (ilog2q x + 1 - max (-1074) (ilog2q x - 52)) ≤ pow2 (-1) :=
              pow2_mono (by omega)
            have : pow2 (-1 : ℤ) = 1/2 := by
              show (1 : ℚ) / ((2^(0+1) : ℕ) : ℚ) = 1/2
              norm_num
            rwa [this] at hm
          have h0 : (0:ℚ) ≤ x / pow2 (max (-1074) (ilog2q x - 52)) :=
            (div_pos hx (pow2_pos _)).le
          rw [rtne_of_nonneg_lt_half h0 hhalf]
          simpa using (pow2_pos (ilog2q x + 1)).le
      have hB : pow2 (ilog2q y) ≤ (rtne (y / pow2 (max (-1074) (ilog2q y - 52))) : ℚ) *
          pow2 (max (-1074) (ilog2q y - 52)) := by
        have hyl : pow2 (ilog2q y) ≤ y := (ilog2q_spec hy).1
        have hdiv : pow2 (52 : ℤ) ≤ y / pow2 (max (-1074) (ilog2q y - 52)) := by
          have hstep : pow2 (52 : ℤ) =
              pow2 (ilog2q y) / pow2 (max (-1074) (ilog2q y - 52)) := by
            rw [eq_div_iff (pow2_pos _).ne', ← pow2_add]
            congr 1
            omega
          rw [hstep]
          exact (div_le_div_right (pow2_pos _)).mpr hyl
        have hint : pow2 (52 : ℤ) = ((2^52 : ℤ) : ℚ) := by
          rw [pow2_ofNonneg (by norm_num : (0:ℤ) ≤ 52)]
          decide
        have hr : (2^52 : ℤ) ≤ rtne (y / pow2 (max (-1074) (ilog2q y - 52))) :=
          le_rtne_of_le (by rw [← hint]; exact hdiv)
        calc pow2 (ilog2q y) = pow2 ((52 : ℤ) + (ilog2q y - 52)) := by congr 1; ring
          _ = pow2 (52 : ℤ) * pow2 (ilog2q y - 52) := pow2_add _ _
          _ = pow2 (52 : ℤ) * pow2 (max (-1074) (ilog2q y - 52)) := by rw [hE2]
          _ ≤ (rtne (y / pow2 (max (-1074) (ilog2q y - 52))) : ℚ) *
              pow2 (max (-1074) (ilog2q y - 52)) := by
              refine mul_le_mul_of_nonneg_right ?_ (pow2_pos _).le
              rw [hint]
              exact_mod_cast hr
      exact le_trans hA (le_trans hmid hB)

/-- The clamped float pipeline is monotone in the count. -/
theorem clamp_float_mono (n : ℕ) {k1 k2 : ℕ} (hk : k1 ≤ k2) :
    min 99 (max 1 (⌊fl64 (fl64 ((k1:ℚ) / (n:ℚ)) * 100)⌋.toNat)) ≤
      min 99 (max 1 (⌊fl64 (fl64 ((k2:ℚ) / (n:ℚ)) * 100)⌋.toNat)) := by
  have hdiv : (k1:ℚ)/(n:ℚ) ≤ (k2:ℚ)/(n:ℚ) := by
    rcases Nat.eq_zero_or_pos n with hn | hn
    · subst hn
      norm_num
    · exact (div_le_div_right (by exact_mod_cast hn)).mpr (by exact_mod_cast hk)
  have h2 : fl64 ((k1:ℚ)/(n:ℚ)) * 100 ≤ fl64 ((k2:ℚ)/(n:ℚ)) * 100 :=
    mul_le_mul_of_nonneg_right (fl64_mono hdiv) (by norm_num)
  exact min_le_min (le_refl _) (max_le_max (le_refl _)
    (Int.toNat_le_toNat (Int.floor_le_floor (fl64_mono h2))))

/-- C3 counterexample: on the 50-member population 0..49 a value that
strictly outperforms exactly 29 members yields 57 from the program's
float arithmetic (0.58 rounds below 58 in binary64, so int() truncates to
57), while the claimed exact formula clamp(floor(100*29/50),1,99) gives 58. -/
theorem calculate_percentile_float_cex :
    calculate_percentile (57/2) ((List.range 50).map (fun i => (i : ℚ))) false = 57 ∧
    min 99 (max 1 (100 * (((List.range 50).map (fun i => (i : ℚ))).filter
        (fun x => x < 57/2)).length / ((List.range 50).map (fun i => (i : ℚ))).length)) = 58 := by
  constructor
  · with_unfolding_all decide
  · with_unfolding_all decide

/-- C3 amended: on a non-empty population the program returns
`clamp(trunc(fl64(fl64(k/n) * 100)), 1, 99)` where `k` counts the
population members the value strictly outperforms and `fl64` is binary64
round-to-nearest-even (this agrees with `clamp(floor(100k/n),1,99)` except
where the float product lands just below an integer), and the result
always lies in `[1, 99]`. -/
theorem calculate_percentile_float_formula (v : ℚ) (pop : List ℚ) (lib : Bool)
    (h : pop ≠ []) :
    calculate_percentile v pop lib =
      min 99 (max 1 (⌊fl64 (fl64
        (((pop.filter (fun x => if lib then v < x else x < v)).length : ℚ) /
          (pop.length : ℚ)) * 100)⌋.toNat)) ∧
    1 ≤ calculate_percentile v pop lib ∧ calculate_percentile v pop lib ≤ 99 := by
  have hformula : calculate_percentile v pop lib =
      min 99 (max 1 (⌊fl64 (fl64
        (((pop.filter (fun x => if lib then v < x else x < v)).length : ℚ) /
          (pop.length : ℚ)) * 100)⌋.toNat)) := by
    unfold calculate_percentile
    rw [if_neg h]
    cases lib
    · rfl
    · rfl
  refine ⟨hformula, ?_, ?_⟩
  · rw [hformula]
    exact le_min (by norm_num) (le_max_left _ _)
  · rw [hformula]
    exact min_le_left _ _

/-- C3 amended witness: a 40-time strictly faster than exactly 7 of 9
population times yields percentile 77, inside `[1, 99]`. -/
theorem calculate_percentile_float_formula_witness :
    calculate_percentile 440 [430, 435, 445, 450, 455, 460, 465, 470, 475] true = 77 ∧
    1 ≤ calculate_percentile 440 [430, 435, 445, 450, 455, 460, 465, 470, 475] true ∧
    calculate_percentile 440 [430, 435, 445, 450, 455, 460, 465, 470, 475] true ≤ 99 := by
  have h := calculate_percentile_float_formula 440
    [430, 435, 445, 450, 455, 460, 465, 470, 475] true (by decide)
  refine ⟨?_, h.2.1, h.2.2⟩
  rw [h.1]
  with_unfolding_all decide

/-- C4: for a fixed population, `calculate_percentile` is monotone in the
subject value — nondecreasing when higher is better, nonincreasing when
lower is better. -/
theorem calculate_percentile_monotone (pop : List ℚ) (v1 v2 : ℚ) (h : v1 ≤ v2) :
    calculate_percentile v1 pop false ≤ calculate_percentile v2 pop false ∧
    calculate_percentile v2 pop true ≤ calculate_percentile v1 pop true := by
  by_cases hp : pop = []
  · subst hp
    exact ⟨le_refl _, le_refl _⟩
  · constructor
    · simp only [calculate_percentile, if_neg hp]
      exact clamp_float_mono pop.length (filter_length_mono pop (fun a ha => by
        rw [decide_eq_true_eq] at ha ⊢
        exact lt_of_lt_of_le ha h))
    · simp only [calculate_percentile, if_neg hp]
      exact clamp_float_mono pop.length (filter_length_mono pop (fun a ha => by
        rw [decide_eq_true_eq] at ha ⊢
        exact lt_of_le_of_lt h ha))

/-- C4 witness: monotonicity at a concrete population and pair of values. -/
theorem calculate_percentile_monotone_witness :
    calculate_percentile 430 [430, 445, 460] false ≤ calculate_percentile 450 [430, 445, 460] false ∧
    calculate_percentile 450 [430, 445, 460] true ≤ calculate_percentile 430 [430, 445, 460] true :=
  calculate_percentile_monotone [430, 445, 460] 430 450 (by norm_num)

/-- A key absent from an association list looks up to `none`. -/
theorem lookup_eq_none_of_not_mem_keys {β : Type} (l : List (String × β)) (k : String)
    (h : k ∉ l.map Prod.fst) : l.lookup k = none := by
  rw [List.lookup_eq_none_iff]
  intro p hp
  exact bne_iff_ne.mpr (fun he => h (he ▸ List.mem_map_of_mem Prod.fst hp))

/-- C8: an input whose lower-cased, stripped form is not a key of the
corresponding table gets the explicit no-match value — `none` for metric,
state and sport, `[]` for position — and no error. -/
theorem normalize_unsupported (s : String) :
    (pyStrip (pyLower s) ∉ METRIC_MAPPINGS.map Prod.fst → normalize_metric s = none) ∧
    (pyStrip (pyLower s) ∉ POSITION_MAPPINGS.map Prod.fst → normalize_position s = []) ∧
    (pyStrip (pyLower s) ∉ STATE_MAPPINGS.map Prod.fst → normalize_state s = none) ∧
    (pyStrip (pyLower s) ∉ SPORT_MAPPINGS.map Prod.fst → normalize_sport s = none) := by
  refine ⟨fun h => ?_, fun h => ?_, fun h => ?_, fun h => ?_⟩
  · exact lookup_eq_none_of_not_mem_keys _ _ h
  · unfold normalize_position
    rw [lookup_eq_none_of_not_mem_keys _ _ h]
    rfl
  · exact lookup_eq_none_of_not_mem_keys _ _ h
  · exact lookup_eq_none_of_not_mem_keys _ _ h

/-- C8 witness: the unsupported input "zzz" gets all four no-match values. -/
theorem normalize_unsupported_witness :
    normalize_metric "zzz" = none ∧ normalize_position "zzz" = [] ∧
    normalize_state "zzz" = none ∧ normalize_sport "zzz" = none := by
  have h := normalize_unsupported "zzz"
  exact ⟨h.1 (by decide), h.2.1 (by decide), h.2.2.1 (by decide), h.2.2.2 (by decide)⟩

/-- The population members that have a value under the requested metric key
(the loop of `find_player_comparisons` skips the rest). -/
def fpcMembers (athletes : List NFLAthlete) : List (String × ℚ) :=
  athletes.filterMap (fun a => a.metricValue.map (fun v => (a.name, v)))

/-- The untruncated buckets are the categorize-filtered member lists and
partition the members with values. -/
theorem fpcLoop_characterization (value : ℚ) (lib : Bool)
    (athletes : List NFLAthlete) :
    (fpcLoop value lib athletes).1 =
      (fpcMembers athletes).filterMap (fun p =>
        if categorize value p.2 lib = .better then some (fmtUnit lib p.1 p.2) else none) ∧
    (fpcLoop value lib athletes).2.1 =
      (fpcMembers athletes).filterMap (fun p =>
        if categorize value p.2 lib = .similar then some (fmtSimilar p.1 p.2) else none) ∧
    (fpcLoop value lib athletes).2.2 =
      (fpcMembers athletes).filterMap (fun p =>
        if categorize value p.2 lib = .worse then some (fmtUnit lib p.1 p.2) else none) ∧
    (fpcLoop value lib athletes).1.length + (fpcLoop value lib athletes).2.1.length +
      (fpcLoop value lib athletes).2.2.length = (fpcMembers athletes).length := by
  simp only [fpcMembers]
  induction athletes with
  | nil => exact ⟨rfl, rfl, rfl, rfl⟩
  | cons a rest ih =>
    obtain ⟨ih1, ih2, ih3, ih4⟩ := ih
    have ih4' := ih4
    rw [ih1, ih2, ih3] at ih4'
    cases hv : a.metricValue with
    | none =>
      simpa [fpcLoop, hv] using ⟨ih1, ih2, ih3, ih4⟩
    | some nfl =>
      cases hcat : categorize value nfl lib <;>
        simp [fpcLoop, hv, hcat, ih1, ih2, ih3] <;> omega

/-- C7: every population member with a value lands in exactly one of the
three buckets (the buckets are the categorize-partition of the members,
and their untruncated sizes add up to the number of members with values),
and each returned bucket holds at most `limit` entries. -/
theorem find_player_comparisons_partition (value : ℚ) (athletes : List NFLAthlete)
    (lib : Bool) (limit : ℕ) :
    (find_player_comparisons value athletes lib limit).1 =
      ((fpcMembers athletes).filterMap (fun p =>
        if categorize value p.2 lib = .better then some (fmtUnit lib p.1 p.2) else none)).take limit ∧
    (find_player_comparisons value athletes lib limit).2.1 =
      ((fpcMembers athletes).filterMap (fun p =>
        if categorize value p.2 lib = .similar then some (fmtSimilar p.1 p.2) else none)).take limit ∧
    (find_player_comparisons value athletes lib limit).2.2 =
      ((fpcMembers athletes).filterMap (fun p =>
        if categorize value p.2 lib = .worse then some (fmtUnit lib p.1 p.2) else none)).take limit ∧
    (fpcLoop value lib athletes).1.length + (fpcLoop value lib athletes).2.1.length +
      (fpcLoop value lib athletes).2.2.length = (fpcMembers athletes).length ∧
    (find_player_comparisons value athletes lib limit).1.length ≤ limit ∧
    (find_player_comparisons value athletes lib limit).2.1.length ≤ limit ∧
    (find_player_comparisons value athletes lib limit).2.2.length ≤ limit := by
  obtain ⟨h1, h2, h3, h4⟩ := fpcLoop_characterization value lib athletes
  refine ⟨by rw [find_player_comparisons, h1], by rw [find_player_comparisons, h2],
    by rw [find_player_comparisons, h3], h4, ?_, ?_, ?_⟩
  · exact List.length_take_le _ _
  · exact List.length_take_le _ _
  · exact List.length_take_le _ _

/-- An `Option.or` is `none` exactly when both arguments are. -/
theorem opt_or_eq_none {α : Type} (a b : Option α) :
    a.or b = none ↔ a = none ∧ b = none := by
  cases a <;> simp [Option.or]

/-- The fourth block equals the fourth phrase shape. -/
theorem tryBetter_eq_shape (text : String) :
    tryBetter ((pyLower text).data) = shapeBetter text := by
  unfold tryBetter shapeBetter
  cases h : searchBetter ((pyLower text).data) <;> simp [h]

/-- The third block is the third shape with fourth-shape fallback. -/
theorem tryOver_eq_shape (text : String) :
    tryOver ((pyLower text).data) = (shapeOver text).or (shapeBetter text) := by
  unfold tryOver shapeOver
  cases h : searchOver ((pyLower text).data) with
  | none => simp [h, Option.or, tryBetter_eq_shape]
  | some r =>
    cases hn : normalize_metric (String.mk r.2) with
    | none => simp [h, hn, Option.or, tryBetter_eq_shape]
    | some name => simp [h, hn, Option.or]

/-- The second block is the second shape with later-shape fallback. -/
theorem tryUnder_eq_shape (text : String) :
    tryUnder ((pyLower text).data) =
      (shapeUnder text).or ((shapeOver text).or (shapeBetter text)) := by
  unfold tryUnder shapeUnder
  cases h : searchUnder ((pyLower text).data) with
  | none => simp [h, Option.or, tryOver_eq_shape]
  | some r =>
    cases hn : normalize_metric (String.mk r.2) with
    | none => simp [h, hn, Option.or, tryOver_eq_shape]
    | some name => simp [h, hn, Option.or]

/-- C6: `parse_metric_condition` tries the four phrase shapes in the fixed
priority order sub / under-below / over-above / or-better, returning the
Filter of the first shape whose pattern matches and whose metric token
normalizes (so later shapes are never consulted after a success); each
shape carries its fixed operator, and the result is `None` exactly when no
shape yields a Filter. -/
theorem parse_metric_condition_priority (text : String) :
    parse_metric_condition text =
      (shapeSub text).or ((shapeUnder text).or ((shapeOver text).or (shapeBetter text))) ∧
    Option.all (fun f => f.operator == "<") (shapeSub text) = true ∧
    Option.all (fun f => f.operator == "<") (shapeUnder text) = true ∧
    Option.all (fun f => f.operator == ">") (shapeOver text) = true ∧
    Option.all (fun f => f.operator == "<=") (shapeBetter text) = true ∧
    (parse_metric_condition text = none ↔
      shapeSub text = none ∧ shapeUnder text = none ∧
      shapeOver text = none ∧ shapeBetter text = none) := by
  have hmain : parse_metric_condition text =
      (shapeSub text).or ((shapeUnder text).or ((shapeOver text).or (shapeBetter text))) := by
    unfold parse_metric_condition shapeSub
    cases h : searchSub ((pyLower text).data) with
    | none => simp [h, Option.or, tryUnder_eq_shape]
    | some r =>
      cases hn : normalize_metric (String.mk r.2) with
      | none => simp [h, hn, Option.or, tryUnder_eq_shape]
      | some name => simp [h, hn, Option.or]
  have opOf : ∀ (op : String) (s : Option (List Char × List Char)),
      Option.all (fun f => f.operator == op)
        (s.bind fun r => (normalize_metric (String.mk r.2)).map (mkParsedFilter op · r.1)) = true := by
    intro op s
    cases s with
    | none => rfl
    | some r =>
      cases hn : normalize_metric (String.mk r.2) with
      | none => simp [hn]
      | some name => simp [hn, mkParsedFilter, Option.all]
  refine ⟨hmain, opOf "<" _, opOf "<" _, opOf ">" _, opOf "<=" _, ?_⟩
  rw [hmain, opt_or_eq_none, opt_or_eq_none, opt_or_eq_none]

/-- C1 counterexample: two Filters that reference the same canonical metric
(as produced by `build_search_query` from the conditions `("40", "<", 4.5)`
and `("forty", ">", 4.0)`) each emit a join, so the canonical name
"40 Yard Dash" is joined twice: the code deduplicates `include_metrics`
joins against Filter joins only, never Filter joins against each other. -/
theorem joins_duplicated_for_duplicate_filters :
    (((build_athlete_search_query
        { metrics := [
            { metric_name := "40 Yard Dash", operator := "<", value := 9/2,
              sqlAlias := make_alias "40 Yard Dash" },
            { metric_name := "40 Yard Dash", operator := ">", value := 4,
              sqlAlias := make_alias "40 Yard Dash" }],
          positions := [], state := none, graduation_year := none, sport_id := none }
        []).joinedMetrics.map Prod.snd).count "40 Yard Dash") = 2 := by decide

/-- Dropping the paired tag keeps exactly the unguarded entries. -/
theorem filterMap_guard_map_snd (P : String → Bool) (g : String → String)
    (l : List String) :
    (l.filterMap (fun name =>
      if P name then none else some (g name, name))).map Prod.snd
      = l.filter (fun name => !P name) := by
  induction l with
  | nil => rfl
  | cons x t ih =>
    by_cases h : P x = true
    · simp [h, ih]
    · simp [h, ih]

/-- C1 amended: one join per canonical metric, provided the Filter list and
the `extraFields` list each mention each canonical metric at most once and
Filter aliases are derived from their canonical names (deduplication only
happens between `extraFields` and Filters, by alias). -/
theorem joinedMetrics_nodup (filters : SearchFilters) (inc : List String)
    (hal : ∀ mf ∈ filters.metrics, mf.sqlAlias = make_alias mf.metric_name)
    (hnames : (filters.metrics.map (fun mf => mf.metric_name)).Nodup)
    (hinc : inc.Nodup) :
    ((build_athlete_search_query filters inc).joinedMetrics.map Prod.snd).Nodup := by
  show ((filters.metrics.map (fun mf => (mf.sqlAlias, mf.metric_name)) ++
      inc.filterMap (fun name =>
        if filters.metrics.any (fun mf => mf.sqlAlias == make_alias name) then none
        else some (make_alias name, name))).map Prod.snd).Nodup
  rw [List.map_append, List.map_map,
    filterMap_guard_map_snd
      (fun name => filters.metrics.any (fun mf => mf.sqlAlias == make_alias name))
      make_alias inc]
  apply List.Nodup.append
  · simpa [Function.comp] using hnames
  · exact hinc.filter _
  · intro n hn1 hn2
    obtain ⟨mf, hmf, hmfn⟩ := List.mem_map.1 hn1
    obtain ⟨-, hguard⟩ := List.mem_filter.1 hn2
    rw [Bool.not_eq_eq_eq_not, Bool.not_true, List.any_eq_false] at hguard
    apply hguard mf hmf
    rw [beq_iff_eq, hal mf hmf, ← hmfn]
    rfl

/-- C1 amended witness: a Filter metric plus a distinct `extraFields`
metric yield joins with no repeated canonical name. -/
theorem joinedMetrics_nodup_witness :
    ((build_athlete_search_query
        { metrics := [
            { metric_name := "40 Yard Dash", operator := "<", value := 9/2,
              sqlAlias := make_alias "40 Yard Dash" }],
          positions := [], state := none, graduation_year := none, sport_id := none }
        ["Vertical Jump", "Height"]).joinedMetrics.map Prod.snd).Nodup :=
  joinedMetrics_nodup
    { metrics := [
        { metric_name := "40 Yard Dash", operator := "<", value := 9/2,
          sqlAlias := make_alias "40 Yard Dash" }],
      positions := [], state := none, graduation_year := none, sport_id := none }
    ["Vertical Jump", "Height"]
    (by decide) (by decide) (by decide)

/-- C2 counterexample: with `verified_only=true`, a join added for an
`include_metrics` entry ("Vertical Jump") is emitted but receives no
verification predicate — the `verified = 1` loop runs over
`filters.metrics` only. -/
theorem include_join_lacks_verified_pred :
    ("vertical_jump", "Vertical Jump") ∈
      (build_athlete_search_query
        { metrics := [
            { metric_name := "40 Yard Dash", operator := "<", value := 9/2,
              sqlAlias := "40_yard_dash" }],
          positions := [], state := none, graduation_year := none,
          sport_id := none, verified_only := true }
        ["Vertical Jump"]).joinedMetrics ∧
    ((build_athlete_search_query
        { metrics := [
            { metric_name := "40 Yard Dash", operator := "<", value := 9/2,
              sqlAlias := "40_yard_dash" }],
          positions := [], state := none, graduation_year := none,
          sport_id := none, verified_only := true }
        ["Vertical Jump"]).verified_preds.count
          (mkVerifiedPred "vertical_jump")) = 0 ∧
    (build_athlete_search_query
        { metrics := [
            { metric_name := "40 Yard Dash", operator := "<", value := 9/2,
              sqlAlias := "40_yard_dash" }],
          positions := [], state := none, graduation_year := none,
          sport_id := none, verified_only := true }
        ["Vertical Jump"]).verified_preds = ["m_40_yard_dash.verified = 1"] := by
  refine ⟨by decide, by decide, by decide⟩

/-- The map `mkVerifiedPred` is injective in the alias. -/
theorem mkVerifiedPred_injective : Function.Injective mkVerifiedPred := by
  intro a b h
  have hd := congrArg String.data h
  simp only [mkVerifiedPred, String.data_append] at hd
  exact String.ext (List.append_cancel_left (List.append_cancel_right hd))

/-- C2 amended: verification predicates are emitted exactly for the Filter
metrics — none when `verified_only=false`, one per `filters.metrics` entry
when `verified_only=true` (hence exactly one per Filter join when Filter
aliases are distinct); `include_metrics` joins receive none. -/
theorem verified_preds_characterization (filters : SearchFilters) (inc : List String) :
    (filters.verified_only = false →
      (build_athlete_search_query filters inc).verified_preds = []) ∧
    (filters.verified_only = true →
      (build_athlete_search_query filters inc).verified_preds =
        filters.metrics.map (fun mf => mkVerifiedPred mf.sqlAlias)) ∧
    ((filters.metrics.map (fun mf => mf.sqlAlias)).Nodup →
      filters.verified_only = true →
      ∀ mf ∈ filters.metrics,
        ((build_athlete_search_query filters inc).verified_preds.count
          (mkVerifiedPred mf.sqlAlias)) = 1) := by
  refine ⟨fun h => ?_, fun h => ?_, fun hnd h mf hmf => ?_⟩
  · show (if filters.verified_only then _ else []) = []
    rw [h]
    rfl
  · show (if filters.verified_only then _ else []) =
      filters.metrics.map (fun mf => mkVerifiedPred mf.sqlAlias)
    rw [h]
    rfl
  · show ((if filters.verified_only then
        filters.metrics.map (fun mf => mkVerifiedPred mf.sqlAlias) else []).count
          (mkVerifiedPred mf.sqlAlias)) = 1
    rw [h]
    show ((filters.metrics.map (fun mf => mkVerifiedPred mf.sqlAlias)).count
      (mkVerifiedPred mf.sqlAlias)) = 1
    have hmm : (filters.metrics.map (fun mf => mkVerifiedPred mf.sqlAlias)) =
        (filters.metrics.map (fun mf => mf.sqlAlias)).map mkVerifiedPred := by
      rw [List.map_map]
      rfl
    rw [hmm, List.count_map_of_injective _ _ mkVerifiedPred_injective]
    exact List.count_eq_one_of_mem hnd (List.mem_map_of_mem _ hmf)

/-- C2 amended witness: concrete query with `verified_only=true`, one
Filter metric and one `include_metrics` entry. -/
theorem verified_preds_characterization_witness :
    (build_athlete_search_query
      { metrics := [
          { metric_name := "40 Yard Dash", operator := "<", value := 9/2,
            sqlAlias := "40_yard_dash" }],
        positions := [], state := none, graduation_year := none,
        sport_id := none, verified_only := true }
      ["Vertical Jump"]).verified_preds = [mkVerifiedPred "40_yard_dash"] ∧
    ((build_athlete_search_query
      { metrics := [
          { metric_name := "40 Yard Dash", operator := "<", value := 9/2,
            sqlAlias := "40_yard_dash" }],
        positions := [], state := none, graduation_year := none,
        sport_id := none, verified_only := true }
      ["Vertical Jump"]).verified_preds.count (mkVerifiedPred "40_yard_dash")) = 1 := by
  have h := verified_preds_characterization
    { metrics := [
        { metric_name := "40 Yard Dash", operator := "<", value := 9/2,
          sqlAlias := "40_yard_dash" }],
      positions := [], state := none, graduation_year := none,
      sport_id := none, verified_only := true }
    ["Vertical Jump"]
  refine ⟨?_, ?_⟩
  · rw [h.2.1 rfl]
    rfl
  · exact h.2.2 (by decide) rfl
      { metric_name := "40 Yard Dash", operator := "<", value := 9/2,
        sqlAlias := "40_yard_dash" } (List.Mem.head _)

/-- Scoring reads only the descriptive fields, never `fit_score` or
`fit_reasons`, so re-scoring a scored event sees the same inputs. -/
theorem computeScore_update (p : String → Option Int) (city : String) (e : CampEvent) :
    computeScore p city (updateEvent p city e) = computeScore p city e := by
  cases e
  rfl

/-- Re-running the rule set on an already scored event changes nothing. -/
theorem updateEvent_idem (p : String → Option Int) (city : String) (e : CampEvent) :
    updateEvent p city (updateEvent p city e) = updateEvent p city e := by
  have hx : ∀ x : CampEvent, updateEvent p city x =
      { x with fit_score := (computeScore p city x).1,
               fit_reasons := (computeScore p city x).2 } := fun _ => rfl
  rw [hx (updateEvent p city e), computeScore_update, hx e]

/-- Running `_rank_events` twice equals running it once. -/
theorem rank_events_idem (p : String → Option Int) (city : String)
    (events : List CampEvent) :
    rank_events p city (rank_events p city events) = rank_events p city events := by
  unfold rank_events
  have hfix : ∀ x ∈ List.insertionSort fitGE (events.map (updateEvent p city)),
      updateEvent p city x = x := by
    intro x hx
    obtain ⟨y, -, rfl⟩ := List.mem_map.1 ((List.mem_insertionSort fitGE).1 hx)
    exact updateEvent_idem p city y
  rw [List.map_congr_left hfix, List.map_id']
  exact List.Sorted.insertionSort_eq (List.sorted_insertionSort fitGE _)

/-- C9: running the scoring rule set twice — same athlete profile, same
candidate attributes, same current time (embedded in `parseDays`), with
each run starting every candidate from the fixed baseline score 100 —
produces identical `fit_score` values and identical ordered `fit_reasons`
lists, in the same order. -/
theorem rank_events_deterministic (p : String → Option Int) (city : String)
    (events : List CampEvent) :
    (rank_events p city (rank_events p city events)).map
        (fun e => (e.fit_score, e.fit_reasons)) =
      (rank_events p city events).map (fun e => (e.fit_score, e.fit_reasons)) ∧
    rank_events p city (rank_events p city events) = rank_events p city events := by
  have h := rank_events_idem p city events
  exact ⟨by rw [h], h⟩

end GMTM
